import Mathlib

/-!
Verification of the template-engine core of the `ckeditor5-templates`
repository (`src/templateediting.js` and its companion modules) against its
natural-language specification.

The embedding models:
* the DOM trees handed to `_registerElement` after `DOMParser.parseFromString`,
* the `ElementInfo` descriptors and the `_elements` registry (a JS object,
  i.e. an insertion-ordered string-keyed map),
* the schema registrations issued by `_registerElement`,
* the upcast/downcast conversion helpers and `_findMatchingTemplateElement`,
* the integrity postfixer (`postfixTemplateElement` /
  `prepareTemplateElementPostfixer`).

`utils/elementinfo.js`, `utils/conversion.js` and `utils/integrity.js` are not
part of the provided sources; the definitions taken from their specification
carry a doc comment saying so.
-/

namespace Templates

/-- An association list with string keys, used to model both DOM/view/model
attribute maps and JS objects keyed by strings. -/
abbrev AList (α : Type) := List (String × α)

/-- Reading `m[k]` on a JS object / `getAttribute`: the value at the first (hence, by
`objInsert`, the only) binding of `k`, or `undefined` (`none`). -/
def alGet {α : Type} (m : AList α) (k : String) : Option α :=
  (m.find? (fun kv => kv.fst == k)).map (fun kv => kv.snd)

/-- Writing `m[k] = v` on a JS object / `setAttribute`: overwrite the binding in place
if the key is present (JS objects keep the original insertion position),
otherwise append a new binding. -/
def objInsert {α : Type} (m : AList α) (k : String) (v : α) : AList α :=
  if m.any (fun kv => kv.fst == k) then
    m.map (fun kv => if kv.fst == k then (k, v) else kv)
  else
    m ++ [(k, v)]

/-- The call `Object.values(m)`: the values in insertion order. -/
def objValues {α : Type} (m : AList α) : List α :=
  m.map Prod.snd

/-- A parsed DOM node as produced by `DOMParser` and consumed by
`_registerElement`: `nodeType` (1 for elements, 3 for text, 8 for comments),
tag name, attribute map, child nodes. -/
inductive DomNode : Type where
  | mk (nodeType : Nat) (tagName : String) (attributes : AList String)
      (childNodes : List DomNode)

def DomNode.nodeType : DomNode → Nat
  | .mk t _ _ _ => t

def DomNode.tagName : DomNode → String
  | .mk _ n _ _ => n

def DomNode.attributes : DomNode → AList String
  | .mk _ _ a _ => a

def DomNode.childNodes : DomNode → List DomNode
  | .mk _ _ _ c => c

/-- The DOM call `dom.setAttribute(k, v)` (used by `init` to stamp `ck-name` on a template
root before registration). -/
def DomNode.setAttribute (dom : DomNode) (k v : String) : DomNode :=
  .mk dom.nodeType dom.tagName (objInsert dom.attributes k v) dom.childNodes

/-- The descriptor of one template element, as stored in the plugin's
`_elements` registry.  `parent` is the weak back-reference to the enclosing
descriptor, kept here by name; `none` marks a template root. -/
structure ElementInfo : Type where
  name : String
  type : String
  tagName : String
  attributes : AList String
  parent : Option String
deriving DecidableEq, Repr

/-- Modelled from the spec: `utils/elementinfo.js` is not among the provided
sources.  The spec fixes the shape: the root descriptor's name is a prefix
applied to the definition name, each descendant's name is derived from its
ancestor chain (plus its position, for global uniqueness), `type` defaults to
`"element"`.  The root prefix is `ck__`, as pinned down by `init` in
`src/templateediting.js`, which extends the `$text` schema item with
`allowIn: Object.keys(templates).map(key => ck__key)` — those keys must be the
registered root element names for that extension to refer to anything.  The
definition name reaches the constructor through the `ck-name` attribute that
`init` stamps on the parsed root. -/
def elementInfoOf (dom : DomNode) (parent : Option ElementInfo) (idx : Nat) :
    ElementInfo :=
  { name :=
      match parent with
      | some p => p.name ++ "__" ++ ((alGet dom.attributes "ck-name").getD ("child" ++ toString idx))
      | none => "ck__" ++ ((alGet dom.attributes "ck-name").getD "")
    type := (alGet dom.attributes "ck-type").getD "element"
    tagName := dom.tagName
    attributes := dom.attributes
    parent := parent.map (fun p => p.name) }

/-- One call to `editor.model.schema.register(name, {...})` as issued by
`_registerElement`. -/
structure SchemaReg : Type where
  name : String
  isObject : Bool
  isBlock : Bool
  allowIn : String
  allowAttributes : List String
deriving DecidableEq, Repr

mutual

/-- The method `_registerElement(dom, parent)`: build the `ElementInfo`, issue its schema
registration (`allowIn` is the parent's name for nested elements and `$root`
for template roots, `allowAttributes` the descriptor's attribute keys), then
recurse into the child nodes of `nodeType === 1`.  The source filters the
child list and then maps over it; here the filter test is fused into the
recursion over the children, which registers exactly the same elements in the
same order.  The returned list collects, in registration order, each
registered descriptor with its schema registration. -/
def registerElement : DomNode → Option ElementInfo → Nat →
    List (ElementInfo × SchemaReg)
  | .mk t n a children, parent, idx =>
    let element := elementInfoOf (.mk t n a children) parent idx
    (element,
      { name := element.name
        isObject := true
        isBlock := true
        allowIn := match parent with | some p => p.name | none => "$root"
        allowAttributes := element.attributes.map Prod.fst }) ::
      registerChildElements children element 0

/-- The recursion of `_registerElement` over
`Array.from(dom.childNodes).filter(node => node.nodeType === 1)`: non-element
child nodes are skipped and do not advance the element position counter. -/
def registerChildElements : List DomNode → ElementInfo → Nat →
    List (ElementInfo × SchemaReg)
  | [], _, _ => []
  | c :: rest, parent, idx =>
    if c.nodeType == 1 then
      registerElement c (some parent) idx ++ registerChildElements rest parent (idx + 1)
    else
      registerChildElements rest parent idx

end

mutual

/-- Remove every non-element node (`nodeType !== 1`) from a DOM tree,
recursively.  Registration is invariant under this operation (claim C9):
text and comment nodes never produce descriptors. -/
def stripNonElements : DomNode → DomNode
  | .mk t n a children => .mk t n a (stripChildElements children)

/-- Keep only the element children, stripping their own subtrees. -/
def stripChildElements : List DomNode → List DomNode
  | [] => []
  | c :: rest =>
    if c.nodeType == 1 then
      stripNonElements c :: stripChildElements rest
    else
      stripChildElements rest

end

/-- The outcome of `new DOMParser().parseFromString(raw, 'text/xml').documentElement`.
The raw markup string is modelled by its parse outcome: `some dom` for
well-formed markup, `none` for malformed markup.  `DOMParser` never throws;
per its contract, on a parse error `documentElement` is a `parsererror`
element (an ordinary element node). -/
def parseFromString (raw : Option DomNode) : DomNode :=
  match raw with
  | some dom => dom
  | none => .mk 1 "parsererror" [] []

/-- The body of `init`'s registration loop for one configured template:
parse the markup, stamp `ck-name`, register the resulting tree, and store
every registered descriptor in the `_elements` object under its generated
name (`this._elements[element.name] = element` — a plain object write, with
no collision check). -/
def registerDefinition (acc : AList ElementInfo) (nt : String × Option DomNode) :
    AList ElementInfo :=
  let dom := (parseFromString nt.snd).setAttribute "ck-name" nt.fst
  (registerElement dom none 0).foldl
    (fun a er => objInsert a er.fst.name er.fst) acc

/-- The registration loop of `init` over all configured templates, starting
from the empty `_elements` object. -/
def initRegistry (templates : AList (Option DomNode)) : AList ElementInfo :=
  templates.foldl registerDefinition []

/-- The method `getElementInfo(name)`: plain object indexing, `undefined` when absent. -/
def getElementInfo (elements : AList ElementInfo) (name : String) :
    Option ElementInfo :=
  alGet elements name

/-- The method `getElementsByType(type)`, i.e.
`Object.values(this._elements).filter(el => el.type === type)`. -/
def getElementsByType (elements : AList ElementInfo) (type : String) :
    List ElementInfo :=
  (objValues elements).filter (fun el => el.type == type)

/-- A view element, as read during upcast and produced during downcast.
`isWidget` records whether `toWidget` has marked the element as an atomic
non-editable widget (the marking added by the editing-downcast path only). -/
structure ViewElement : Type where
  name : String
  attributes : AList String
  isWidget : Bool
deriving DecidableEq, Repr

/-- The writer call `viewWriter.createContainerElement(tag, attrs)`: a plain container, not
widget-marked. -/
def createContainerElement (tag : String) (attrs : AList String) : ViewElement :=
  { name := tag, attributes := attrs, isWidget := false }

/-- The helper `toWidget(el, viewWriter)` from the widget utils: marks the element as an
atomic, non-editable-by-default widget. -/
def toWidget (el : ViewElement) : ViewElement :=
  { el with isWidget := true }

/-- A model element: its type name (a descriptor name) and its attributes. -/
structure ModelNode : Type where
  name : String
  attributes : AList String
deriving DecidableEq, Repr

/-- Modelled from the spec: `ElementInfo#matches` lives in the missing
`utils/elementinfo.js`.  The match predicate compares the tag name and the
presence/values of the attributes the descriptor declares. -/
def ElementInfo.matches (el : ElementInfo) (v : ViewElement) : Bool :=
  el.tagName == v.name &&
    el.attributes.all (fun kv => alGet v.attributes kv.fst == some kv.snd)

/-- Modelled from the spec: `getViewAttributes` lives in the missing
`utils/conversion.js`.  It copies the view element's attributes, restricted to
the attribute names the descriptor declares allowed. -/
def getViewAttributes (templateElement : ElementInfo) (viewElement : ViewElement) :
    AList String :=
  viewElement.attributes.filter
    (fun kv => (alGet templateElement.attributes kv.fst).isSome)

/-- Modelled from the spec: `getModelAttributes` lives in the missing
`utils/conversion.js`.  It copies the model element's attributes, restricted to
the attribute names the descriptor declares allowed. -/
def getModelAttributes (templateElement : ElementInfo) (modelElement : ModelNode) :
    AList String :=
  modelElement.attributes.filter
    (fun kv => (alGet templateElement.attributes kv.fst).isSome)

/-- The method `_findMatchingTemplateElement(viewElement, types)`:
`Object.values(this._elements).filter(el => el.matches(viewElement) && types.includes(el.type)).pop()`
— `pop` on a (possibly empty) array yields its last element or `undefined`. -/
def findMatchingTemplateElement (elements : AList ElementInfo)
    (viewElement : ViewElement) (types : List String) : Option ElementInfo :=
  ((objValues elements).filter
    (fun el => el.matches viewElement && types.contains el.type)).getLast?

/-- The converter `upcastTemplateElement` combined with `init`'s default upcast `model`
callback: the `view` predicate accepts the element iff
`_findMatchingTemplateElement` finds a descriptor, and the `model` callback
then builds `modelWriter.createElement(templateElement.name,
getViewAttributes(templateElement, viewElement))` for the found descriptor. -/
def upcastTemplateElement (elements : AList ElementInfo) (types : List String)
    (viewElement : ViewElement) : Option ModelNode :=
  match findMatchingTemplateElement elements viewElement types with
  | some templateElement =>
    some { name := templateElement.name
           attributes := getViewAttributes templateElement viewElement }
  | none => none

/-- The dispatch of `downcastTemplateElement` (the class method of
`TemplateEditing`): on insertion of a model element, look its name up in
`_elements`; if found and its type is in the configured type filter, build the
view with the configured `view` callback, otherwise produce nothing. -/
def downcastTemplateElement (elements : AList ElementInfo) (types : List String)
    (view : ElementInfo → ModelNode → ViewElement) (modelElement : ModelNode) :
    Option ViewElement :=
  match alGet elements modelElement.name with
  | some templateElement =>
    if types.contains templateElement.type then
      some (view templateElement modelElement)
    else
      none
  | none => none

/-- The default data-downcast `view` callback of `init`: a plain container element
with the descriptor's tag and the model attributes. -/
def dataDowncastView (templateElement : ElementInfo) (modelElement : ModelNode) :
    ViewElement :=
  createContainerElement templateElement.tagName
    (getModelAttributes templateElement modelElement)

/-- The default editing-downcast `view` callback of `init`: the same container, and
additionally `toWidget` when the descriptor has no parent
(`templateElement.parent ? el : toWidget(el, viewWriter)`). -/
def editingDowncastView (templateElement : ElementInfo) (modelElement : ModelNode) :
    ViewElement :=
  let el := createContainerElement templateElement.tagName
    (getModelAttributes templateElement modelElement)
  match templateElement.parent with
  | some _ => el
  | none => toWidget el

/-- Data downcast followed by upcast of the produced view element, both over
the same registry and type filter. -/
def roundTrip (elements : AList ElementInfo) (types : List String)
    (modelElement : ModelNode) : Option ModelNode :=
  (downcastTemplateElement elements types dataDowncastView modelElement).bind
    (fun v => upcastTemplateElement elements types v)

/-! ### The integrity postfixer

`utils/integrity.js` (`postfixTemplateElement`, `prepareTemplateElementPostfixer`)
is not among the provided sources; this part is modelled from the spec's
repair algorithm.  The repair pass only looks at descriptor names and
parent/child structure, so descriptors and model nodes are modelled here by
their name-labelled trees. -/

/-- A descriptor tree seen by the repair pass: the generated name and the
ordered required children. -/
inductive TDesc : Type where
  | mk (name : String) (children : List TDesc)

def TDesc.name : TDesc → String
  | .mk n _ => n

def TDesc.children : TDesc → List TDesc
  | .mk _ c => c

/-- A model sub-tree seen by the repair pass: the node's type name and its
ordered actual children. -/
inductive TNode : Type where
  | mk (name : String) (children : List TNode)

def TNode.name : TNode → String
  | .mk n _ => n

def TNode.children : TNode → List TNode
  | .mk _ c => c

/-- Modelled from the spec: materialize a fresh model node for a descriptor,
recursively materializing its own required descendants, so that the
constructed sub-tree already satisfies the closed-shape and ordering
invariant. -/
def materializeElement : TDesc → TNode
  | .mk n cs => .mk n (cs.attach.map (fun c => materializeElement c.val))
termination_by d => sizeOf d
decreasing_by
  have h := List.sizeOf_lt_of_mem c.property
  simp only [TDesc.mk.sizeOf_spec]
  omega

mutual

/-- Modelled from the spec: `postfixTemplateElement` repairs one changed model
node against its descriptor `D`.  If `D` has no required children the node is
skipped.  Otherwise the node's actual children are aligned against
`D.children` in order (see `alignChildren`); the second component reports
whether the pass touched anything. -/
def postfixTemplateElement (d : TDesc) (m : TNode) : TNode × Bool :=
  match d, m with
  | .mk _ ds, .mk n cs =>
    match ds with
    | [] => (.mk n cs, false)
    | dc :: rest =>
      let r := alignChildren (dc :: rest) cs
      (.mk n r.fst, r.snd)

/-- Modelled from the spec: walk the required child descriptors in order
against the actual children.  A positional match (same name) is kept and
repaired recursively; a missing required child is materialized and inserted at
its position; an actual child whose name matches none of the still-expected
descriptor children violates the closed shape and is removed; actual children
beyond the required list are removed; missing trailing required children are
materialized.  Insertions and removals count as touches. -/
def alignChildren (ds : List TDesc) (cs : List TNode) : List TNode × Bool :=
  match ds, cs with
  | [], [] => ([], false)
  | [], _ :: cs2 =>
    let r := alignChildren [] cs2
    (r.fst, true)
  | dc :: ds2, [] =>
    let r := alignChildren ds2 []
    (materializeElement dc :: r.fst, true)
  | dc :: ds2, c :: cs2 =>
    if c.name = dc.name then
      let rc := postfixTemplateElement dc c
      let r := alignChildren ds2 cs2
      (rc.fst :: r.fst, rc.snd || r.snd)
    else if ((dc :: ds2).map TDesc.name).contains c.name then
      let r := alignChildren ds2 (c :: cs2)
      (materializeElement dc :: r.fst, true)
    else
      let r := alignChildren (dc :: ds2) cs2
      (r.fst, true)

end

/-- Look a model node's name up in the registered descriptor trees (the model
counterpart of `getElementInfo` for the repair pass). -/
def lookupDesc (descs : List TDesc) (name : String) : Option TDesc :=
  descs.find? (fun d => d.name == name)

/-- Repair of one changed node: resolve its descriptor; nodes whose name
resolves to no descriptor are not template elements and are left alone. -/
def postfixOneElement (descs : List TDesc) (m : TNode) : TNode × Bool :=
  match lookupDesc descs m.name with
  | some d => postfixTemplateElement d m
  | none => (m, false)

/-- Modelled from the spec: `prepareTemplateElementPostfixer` — one postfixer
invocation over the set of changed nodes, returning the repaired nodes and
whether anything was touched (the host re-runs the postfixer until this is
`false`). -/
def prepareTemplateElementPostfixer (descs : List TDesc) (changed : List TNode) :
    List TNode × Bool :=
  match changed with
  | [] => ([], false)
  | m :: rest =>
    let r := postfixOneElement descs m
    let rs := prepareTemplateElementPostfixer descs rest
    (r.fst :: rs.fst, r.snd || rs.snd)

/-! ### Helper lemmas -/

/-- Setting a key on a JS object makes it the key's value. -/
theorem alGet_objInsert_self {α : Type} (m : AList α) (k : String) (v : α) :
    alGet (objInsert m k v) k = some v := by
  unfold objInsert
  split
  · rename_i hany
    induction m with
    | nil => simp at hany
    | cons kv rest ih =>
      by_cases hk : kv.fst == k
      · simp [alGet, List.find?, hk]
      · simp only [List.any_cons, hk, Bool.false_or] at hany
        rw [List.map_cons, if_neg hk]
        simpa [alGet, List.find?, hk] using ih hany
  · rename_i hany
    induction m with
    | nil => simp [alGet, List.find?]
    | cons kv rest ih =>
      simp only [List.any_cons, Bool.or_eq_true, not_or] at hany
      simp only [List.cons_append]
      simpa [alGet, List.find?, Bool.of_not_eq_true hany.left] using ih hany.right

/-- Popping the filtered registry values: the element after which nothing
matches is the one returned. -/
theorem getLast?_filter_of_suffix {α : Type} (p : α → Bool) (l₁ l₂ : List α)
    (e : α) (he : p e = true) (hl : ∀ x ∈ l₂, p x = false) :
    ((l₁ ++ e :: l₂).filter p).getLast? = some e := by
  rw [List.filter_append, List.filter_cons_of_pos he,
    (List.filter_eq_nil_iff (l := l₂)).mpr (by intro a ha; simp [hl a ha]),
    ← List.concat_eq_append, List.concat_eq_append]
  exact List.getLast?_concat _

/-! ### Claim C1 -/

/-- Claim C1: for every view element and type filter, whenever the registry's
values split as `l₁ ++ e :: l₂` with `e` accepted by the matcher-and-type
filter and nothing in the later part `l₂` accepted, the upcast matching
operation `_findMatchingTemplateElement` returns `e` — i.e. when more than one
registered descriptor matches, the last-registered matching descriptor wins
(registration order being the insertion order of the `_elements` object). -/
theorem findMatchingTemplateElement_last (elements : AList ElementInfo)
    (viewElement : ViewElement) (types : List String)
    (l₁ l₂ : List ElementInfo) (e : ElementInfo)
    (hsplit : objValues elements = l₁ ++ e :: l₂)
    (he : (e.matches viewElement && types.contains e.type) = true)
    (hl : ∀ x ∈ l₂, (x.matches viewElement && types.contains x.type) = false) :
    findMatchingTemplateElement elements viewElement types = some e := by
  unfold findMatchingTemplateElement
  rw [hsplit]
  exact getLast?_filter_of_suffix _ l₁ l₂ e he hl

/-- Witness for C1: two registered descriptors match a plain `div` view
element; the second-registered one is returned. -/
theorem findMatchingTemplateElement_last_witness :
    findMatchingTemplateElement
      [("ck__a", { name := "ck__a", type := "element", tagName := "div",
                   attributes := [], parent := none }),
       ("ck__b", { name := "ck__b", type := "element", tagName := "div",
                   attributes := [], parent := none })]
      { name := "div", attributes := [], isWidget := false } ["element"]
      = some { name := "ck__b", type := "element", tagName := "div",
               attributes := [], parent := none } :=
  findMatchingTemplateElement_last _ _ _
    [{ name := "ck__a", type := "element", tagName := "div",
       attributes := [], parent := none }] [] _
    (by decide) (by decide) (by intro x hx; simp at hx)

/-! ### Claim C8 -/

/-- Claim C8: if no registered descriptor both matches the view element and
has a type in the filter (`_findMatchingTemplateElement` returns `undefined`),
the upcast produces no model element — the `view` predicate of
`upcastElementToElement` rejects, so the view node is left to other
(lower-priority/default) converters. -/
theorem upcastTemplateElement_none (elements : AList ElementInfo)
    (types : List String) (viewElement : ViewElement)
    (h : findMatchingTemplateElement elements viewElement types = none) :
    upcastTemplateElement elements types viewElement = none := by
  unfold upcastTemplateElement
  rw [h]

/-- Witness for C8: the empty registry matches nothing, and upcast declines. -/
theorem upcastTemplateElement_none_witness :
    upcastTemplateElement [] ["element"]
      { name := "div", attributes := [], isWidget := false } = none :=
  upcastTemplateElement_none [] ["element"] _ (by decide)

/-! ### Claim C4 -/

/-- Claim C4: the data-downcast view builder never widget-marks what it
builds; the editing-downcast view builder produces the very same plain
container for a descriptor with a parent (a nested element), and applies the
`toWidget` marking exactly for parentless (template root) descriptors. -/
theorem editingDowncast_widget_marking (templateElement : ElementInfo)
    (modelElement : ModelNode) :
    (dataDowncastView templateElement modelElement).isWidget = false ∧
    (templateElement.parent.isSome = true →
      editingDowncastView templateElement modelElement
        = dataDowncastView templateElement modelElement) ∧
    (templateElement.parent = none →
      editingDowncastView templateElement modelElement
        = toWidget (dataDowncastView templateElement modelElement)) := by
  refine ⟨rfl, ?_, ?_⟩
  · intro h
    unfold editingDowncastView dataDowncastView
    match hp : templateElement.parent with
    | some p => rfl
    | none => rw [hp] at h; simp at h
  · intro h
    unfold editingDowncastView dataDowncastView
    rw [h]

/-- Witness for C4: a nested descriptor renders as a plain container in the
editing pipeline, a root descriptor as the widget-marked container. -/
theorem editingDowncast_widget_marking_witness :
    (editingDowncastView
        { name := "ck__p__child0", type := "element", tagName := "div",
          attributes := [], parent := some "ck__p" }
        { name := "ck__p__child0", attributes := [] }
      = dataDowncastView
        { name := "ck__p__child0", type := "element", tagName := "div",
          attributes := [], parent := some "ck__p" }
        { name := "ck__p__child0", attributes := [] }) ∧
    (editingDowncastView
        { name := "ck__p", type := "element", tagName := "div",
          attributes := [], parent := none }
        { name := "ck__p", attributes := [] }
      = toWidget (dataDowncastView
        { name := "ck__p", type := "element", tagName := "div",
          attributes := [], parent := none }
        { name := "ck__p", attributes := [] })) :=
  ⟨(editingDowncast_widget_marking _ _).right.left (by decide),
   (editingDowncast_widget_marking _ _).right.right (by decide)⟩

/-! ### Claim C10 -/

/-- Claim C10: registry lookup is total and error-free — an unregistered name
yields `undefined` (`none`) from `getElementInfo`, and a type with no
registered descriptors yields the empty list from `getElementsByType`. -/
theorem registry_lookup_total (elements : AList ElementInfo) (name type : String) :
    ((∀ kv ∈ elements, kv.fst ≠ name) → getElementInfo elements name = none) ∧
    ((∀ el ∈ objValues elements, el.type ≠ type) →
      getElementsByType elements type = []) := by
  constructor
  · intro h
    unfold getElementInfo alGet
    rw [List.find?_eq_none.mpr (by intro kv hkv; simpa using h kv hkv)]
    rfl
  · intro h
    unfold getElementsByType
    exact List.filter_eq_nil_iff.mpr (by intro el hel; simpa using h el hel)

/-- Witness for C10: a one-element registry, probed with a name and a type
that are not registered. -/
theorem registry_lookup_total_witness :
    getElementInfo
      [("ck__simple", { name := "ck__simple", type := "element",
                        tagName := "div", attributes := [], parent := none })]
      "missing" = none ∧
    getElementsByType
      [("ck__simple", { name := "ck__simple", type := "element",
                        tagName := "div", attributes := [], parent := none })]
      "container" = [] :=
  ⟨(registry_lookup_total _ "missing" "container").left (by decide),
   (registry_lookup_total _ "missing" "container").right (by decide)⟩

/-! ### Claim C3 -/

/-- For the definition named `k`, `init` registers a tree whose first
(root) descriptor carries the generated name `ck__k` and no parent. -/
theorem registerElement_root (k : String) (raw : Option DomNode) :
    ∃ er tail,
      registerElement ((parseFromString raw).setAttribute "ck-name" k) none 0
        = er :: tail ∧ er.fst.name = "ck__" ++ k ∧ er.fst.parent = none := by
  cases hd : parseFromString raw with
  | mk t n a children =>
    have hset : (DomNode.mk t n a children).setAttribute "ck-name" k
        = DomNode.mk t n (objInsert a "ck-name" k) children := rfl
    rw [hset]
    simp only [registerElement]
    refine ⟨_, _, rfl, ?_, rfl⟩
    show "ck__" ++ ((alGet (objInsert a "ck-name" k) "ck-name").getD "") = "ck__" ++ k
    rw [alGet_objInsert_self]
    rfl

/-- Counterexample to C3 as stated: for the configuration key `simple`, the
registered root descriptor is named `ck__simple`, not `tpl__simple`. -/
theorem root_name_counterexample :
    (initRegistry [("simple", some (DomNode.mk 1 "div" [("class", "simple")] []))]).map
        Prod.fst = ["ck__simple"] ∧
      "ck__simple" ≠ "tpl__simple" := by
  constructor
  · rfl
  · decide

/-- Claim C3 (amended): for every configured definition with name `n`, the
root descriptor registered for it has the generated name `ck__` ++ `n` (the
prefix is `ck__`, not `tpl__`) and no parent. -/
theorem root_descriptor_name (k : String) (raw : Option DomNode) :
    ((registerElement ((parseFromString raw).setAttribute "ck-name" k) none 0).head?.map
      (fun er => (er.fst.name, er.fst.parent))) = some ("ck__" ++ k, none) := by
  obtain ⟨er, tail, heq, hname, hparent⟩ := registerElement_root k raw
  rw [heq]
  simp [hname, hparent]

/-! ### Claim C7 -/

/-- Claim C7: every schema registration issued during `_registerElement` is
for the descriptor registered alongside it, allows the element only inside
its parent descriptor's element when the descriptor has a parent, and only
directly under the document root (`$root`) when it is parentless. -/
theorem schema_registration_allowIn :
    ∀ (dom : DomNode) (parent : Option ElementInfo) (idx : Nat)
      (e : ElementInfo) (r : SchemaReg),
      (e, r) ∈ registerElement dom parent idx →
      r.name = e.name ∧ r.allowIn = e.parent.getD "$root" := by
  refine registerElement.induct
    (fun dom parent idx => ∀ e r, (e, r) ∈ registerElement dom parent idx →
      r.name = e.name ∧ r.allowIn = e.parent.getD "$root")
    (fun doms par idx => ∀ e r, (e, r) ∈ registerChildElements doms par idx →
      r.name = e.name ∧ r.allowIn = e.parent.getD "$root")
    ?_ ?_ ?_ ?_
  · intro t tagName attributes childNodes parent idx element ih e r hmem
    simp only [registerElement] at hmem
    rcases List.mem_cons.mp hmem with hhead | htail
    · rw [Prod.mk.injEq] at hhead
      obtain ⟨he, hr⟩ := hhead
      subst he
      subst hr
      refine ⟨rfl, ?_⟩
      cases parent with
      | none => rfl
      | some p => rfl
    · exact ih e r htail
  · intro par idx e r hmem
    simp only [registerChildElements] at hmem
    simp at hmem
  · intro c rest parent idx hc ih1 ih2 e r hmem
    simp only [registerChildElements, if_pos hc] at hmem
    rcases List.mem_append.mp hmem with h | h
    · exact ih1 e r h
    · exact ih2 e r h
  · intro c rest parent idx hc ih e r hmem
    simp only [registerChildElements, if_neg hc] at hmem
    exact ih e r hmem

/-- Witness for C7: the schema registration for a root descriptor of a
childless template, checked concretely. -/
theorem schema_registration_allowIn_witness :
    ({ name := "ck__s", isObject := true, isBlock := true, allowIn := "$root",
       allowAttributes := ["ck-name"] } : SchemaReg).name
      = ({ name := "ck__s", type := "element", tagName := "div",
           attributes := [("ck-name", "s")], parent := none } : ElementInfo).name ∧
    ({ name := "ck__s", isObject := true, isBlock := true, allowIn := "$root",
       allowAttributes := ["ck-name"] } : SchemaReg).allowIn
      = ({ name := "ck__s", type := "element", tagName := "div",
           attributes := [("ck-name", "s")], parent := none } : ElementInfo).parent.getD
          "$root" :=
  schema_registration_allowIn (DomNode.mk 1 "div" [("ck-name", "s")] []) none 0
    _ _ (by decide)

/-! ### Claim C9 -/

/-- The strip pass keeps a node's own `nodeType`. -/
theorem stripNonElements_nodeType (dom : DomNode) :
    (stripNonElements dom).nodeType = dom.nodeType := by
  cases dom with
  | mk t n a children => rw [stripNonElements]; rfl

/-- Claim C9: registration ignores every non-element node — removing all
nodes with `nodeType ≠ 1` from the DOM tree (anywhere below the root) leaves
the registered descriptors and schema registrations unchanged, because
`_registerElement` recurses only into child nodes with `nodeType === 1`. -/
theorem registerElement_ignores_non_elements :
    ∀ (dom : DomNode) (parent : Option ElementInfo) (idx : Nat),
      registerElement (stripNonElements dom) parent idx
        = registerElement dom parent idx := by
  refine registerElement.induct
    (fun dom parent idx =>
      registerElement (stripNonElements dom) parent idx
        = registerElement dom parent idx)
    (fun doms par idx =>
      registerChildElements (stripChildElements doms) par idx
        = registerChildElements doms par idx)
    ?_ ?_ ?_ ?_
  · intro t tagName attributes childNodes parent idx element ih
    simp only [stripNonElements, registerElement, elementInfoOf,
      DomNode.attributes, DomNode.tagName]
    exact congrArg _ ih
  · intro par idx
    simp only [stripChildElements]
  · intro c rest parent idx hc ih1 ih2
    simp only [stripChildElements, hc, if_true, registerChildElements,
      stripNonElements_nodeType, ih1, ih2]
  · intro c rest parent idx hc ih
    simp only [stripChildElements, registerChildElements, if_neg hc, ih]

/-! ### Claim C2 -/

/-- A key with a value is present among an object's keys. -/
theorem mem_keys_of_alGet {α : Type} (m : AList α) (k : String) (v : α)
    (h : alGet m k = some v) : k ∈ m.map Prod.fst := by
  unfold alGet at h
  cases hfind : m.find? (fun kv => kv.fst == k) with
  | none => rw [hfind] at h; simp at h
  | some kv =>
    have hmem := List.mem_of_find?_eq_some hfind
    have hp := List.find?_some hfind
    have : kv.fst = k := by simpa using hp
    exact this ▸ List.mem_map_of_mem Prod.fst hmem

/-- Writing one key never removes another key from a JS object. -/
theorem mem_keys_objInsert {α : Type} (m : AList α) (k : String) (v : α)
    (k0 : String) (h : k0 ∈ m.map Prod.fst) :
    k0 ∈ (objInsert m k v).map Prod.fst := by
  unfold objInsert
  split
  · obtain ⟨kv, hkv, hfst⟩ := List.mem_map.mp h
    by_cases hk : kv.fst == k
    · have : kv.fst = k := by simpa using hk
      refine List.mem_map.mpr ⟨(k, v), ?_, by rw [← hfst, this]⟩
      exact List.mem_map.mpr ⟨kv, hkv, by rw [if_pos hk]⟩
    · refine List.mem_map.mpr ⟨kv, ?_, hfst⟩
      exact List.mem_map.mpr ⟨kv, hkv, by rw [if_neg hk]⟩
  · rw [List.map_append]
    exact List.mem_append_left _ h

/-- Keys survive the per-definition registration fold. -/
theorem mem_keys_foldl_register (l : List (ElementInfo × SchemaReg))
    (acc : AList ElementInfo) (k0 : String) (h : k0 ∈ acc.map Prod.fst) :
    k0 ∈ (l.foldl (fun a er => objInsert a er.fst.name er.fst) acc).map Prod.fst := by
  induction l generalizing acc with
  | nil => exact h
  | cons er rest ih =>
    rw [List.foldl_cons]
    exact ih _ (mem_keys_objInsert _ _ _ _ h)

/-- Every descriptor registered during one definition's fold contributes its
name as a key. -/
theorem mem_keys_foldl_register_of_mem (l : List (ElementInfo × SchemaReg))
    (acc : AList ElementInfo) (e : ElementInfo) (r : SchemaReg)
    (h : (e, r) ∈ l) :
    e.name ∈ (l.foldl (fun a er => objInsert a er.fst.name er.fst) acc).map Prod.fst := by
  induction l generalizing acc with
  | nil => simp at h
  | cons er rest ih =>
    rw [List.foldl_cons]
    rcases List.mem_cons.mp h with hhead | htail
    · subst hhead
      exact mem_keys_foldl_register rest _ _
        (mem_keys_of_alGet _ _ _ (alGet_objInsert_self acc e.name e))
    · exact ih _ htail

/-- Keys survive the outer registration loop over the remaining templates. -/
theorem mem_keys_foldl_definitions (templates : AList (Option DomNode))
    (acc : AList ElementInfo) (k0 : String) (h : k0 ∈ acc.map Prod.fst) :
    k0 ∈ (templates.foldl registerDefinition acc).map Prod.fst := by
  induction templates generalizing acc with
  | nil => exact h
  | cons nt rest ih =>
    rw [List.foldl_cons]
    exact ih _ (mem_keys_foldl_register _ _ _ h)

/-- Counterexample to C2 as stated: a configuration whose markup is malformed
(`DOMParser` yields a `parsererror` document) does not fail and does not leave
the registry empty — a descriptor named `ck__bad` is registered for it. -/
theorem init_malformed_registers_counterexample :
    (initRegistry [("bad", none)]).map Prod.fst = ["ck__bad"] := by
  rfl

/-- Claim C2 (amended): registry construction never fails — there is no
`ConfigurationError` and no collision check; `DOMParser.parseFromString` does
not throw on malformed markup (its `parsererror` document is registered like
any other tree), and a colliding generated name silently overwrites the
earlier descriptor in place.  In particular every configured definition,
malformed or not, leaves a registered key `ck__` ++ name in the registry. -/
theorem initRegistry_never_fails (templates : AList (Option DomNode))
    (k : String) (raw : Option DomNode) (h : (k, raw) ∈ templates) :
    ("ck__" ++ k) ∈ (initRegistry templates).map Prod.fst := by
  unfold initRegistry
  suffices hgen : ∀ (ts : AList (Option DomNode)) (acc : AList ElementInfo),
      (k, raw) ∈ ts → ("ck__" ++ k) ∈ (ts.foldl registerDefinition acc).map Prod.fst by
    exact hgen templates [] h
  intro ts
  induction ts with
  | nil => intro acc hmem; simp at hmem
  | cons nt rest ih =>
    intro acc hmem
    rcases List.mem_cons.mp hmem with hhead | htail
    · subst hhead
      rw [List.foldl_cons]
      apply mem_keys_foldl_definitions
      obtain ⟨er, tail, heq, hname, _⟩ := registerElement_root k raw
      show ("ck__" ++ k) ∈
        ((registerElement ((parseFromString raw).setAttribute "ck-name" k) none 0).foldl
          (fun a er => objInsert a er.fst.name er.fst) acc).map Prod.fst
      rw [heq]
      exact hname ▸ mem_keys_foldl_register_of_mem (er :: tail) acc er.fst er.snd
        (by rw [Prod.mk.eta]; exact List.mem_cons_self er tail)
    · rw [List.foldl_cons]
      exact ih _ htail

/-- Witness for C2 (amended): the malformed-markup configuration registers
its `ck__bad` key. -/
theorem initRegistry_never_fails_witness :
    ("ck__" ++ "bad") ∈ (initRegistry [("bad", none)]).map Prod.fst :=
  initRegistry_never_fails [("bad", none)] "bad" none (List.mem_cons_self _ _)

/-! ### Claim C5 -/

/-- Counterexample to C5 as stated: the registry built from the `simple`
template (`<div class="simple"></div>`) has the root descriptor `ck__simple`
with declared attributes `class` and `ck-name`; the empty attribute valuation
is a subset of those, yet downcasting a `ck__simple` model node carrying no
attributes and upcasting the result yields no model node at all (the
descriptor's matcher requires its declared attribute values to be present on
the view element), rather than a `ck__simple` node with the same (empty)
attribute set. -/
theorem roundTrip_counterexample :
    ¬ (roundTrip
        (initRegistry [("simple", some (DomNode.mk 1 "div" [("class", "simple")] []))])
        ["element"] { name := "ck__simple", attributes := [] }
      = some { name := "ck__simple", attributes := [] }) := by
  decide

/-- Claim C5 (amended): the round trip is the identity on type and attributes
whenever the upcast matcher actually recovers the downcast descriptor — for a
registered descriptor `te`, an attribute valuation `v` drawn from its allowed
attribute names with a type in the filter, if `_findMatchingTemplateElement`
returns `te` itself on the downcast view (which requires the valuation to
carry the descriptor's declared significant attribute values and no
later-registered descriptor to match), then downcast followed by upcast yields
a model node of the same type carrying exactly `v`. -/
theorem roundTrip_id (elements : AList ElementInfo) (types : List String)
    (te : ElementInfo) (v : AList String)
    (hlook : alGet elements te.name = some te)
    (hty : types.contains te.type = true)
    (hsub : ∀ kv ∈ v, (alGet te.attributes kv.fst).isSome = true)
    (hfind : findMatchingTemplateElement elements
        (dataDowncastView te { name := te.name, attributes := v }) types = some te) :
    roundTrip elements types { name := te.name, attributes := v }
      = some { name := te.name, attributes := v } := by
  have hv : v.filter (fun kv => (alGet te.attributes kv.fst).isSome) = v :=
    List.filter_eq_self.mpr hsub
  have hfind2 : findMatchingTemplateElement elements
      { name := te.tagName, attributes := v, isWidget := false } types = some te := by
    simpa only [dataDowncastView, createContainerElement, getModelAttributes, hv]
      using hfind
  simp only [roundTrip, downcastTemplateElement, hlook, if_pos hty, Option.some_bind,
    upcastTemplateElement, dataDowncastView, createContainerElement,
    getModelAttributes, hv, hfind2, getViewAttributes]

/-- Witness for C5 (amended): the `simple` registry, with the full declared
valuation; the round trip reproduces the `ck__simple` node verbatim. -/
theorem roundTrip_id_witness :
    roundTrip
      [("ck__simple", { name := "ck__simple", type := "element", tagName := "div",
                        attributes := [("class", "simple"), ("ck-name", "simple")],
                        parent := none })]
      ["element"]
      { name := "ck__simple",
        attributes := [("class", "simple"), ("ck-name", "simple")] }
    = some { name := "ck__simple",
             attributes := [("class", "simple"), ("ck-name", "simple")] } :=
  roundTrip_id _ ["element"]
    { name := "ck__simple", type := "element", tagName := "div",
      attributes := [("class", "simple"), ("ck-name", "simple")], parent := none }
    [("class", "simple"), ("ck-name", "simple")]
    (by decide) (by decide) (by decide) (by decide)

/-! ### Claim C6 -/

/-- The repair of one node keeps the node's own name. -/
theorem postfixTemplateElement_name (d : TDesc) (m : TNode) :
    (postfixTemplateElement d m).fst.name = m.name := by
  cases d with
  | mk dn ds =>
    cases m with
    | mk n cs =>
      cases ds with
      | nil => simp only [postfixTemplateElement]
      | cons dc rest => simp only [postfixTemplateElement]; rfl

/-- A materialized node carries its descriptor's name. -/
theorem materializeElement_name (d : TDesc) :
    (materializeElement d).name = d.name := by
  cases d with
  | mk n cs => simp only [materializeElement]; rfl

/-- If the actual children already line up with the required descriptors —
names agree pointwise and each child is individually repair-stable — then the
alignment pass touches nothing. -/
theorem alignChildren_no_touch (ds : List TDesc) (os : List TNode)
    (h : List.Forall₂
      (fun dc o => o.name = dc.name ∧ (postfixTemplateElement dc o).snd = false)
      ds os) :
    (alignChildren ds os).snd = false := by
  induction h with
  | nil => simp only [alignChildren]
  | cons hpair htail ih =>
    obtain ⟨hname, htouch⟩ := hpair
    simp only [alignChildren, if_pos hname, htouch, ih, Bool.or_self]

/-- A freshly materialized sub-tree already satisfies the closed-shape and
ordering invariant: repairing it touches nothing. -/
theorem postfix_materialize_no_touch :
    ∀ d : TDesc, (postfixTemplateElement d (materializeElement d)).snd = false := by
  intro d
  induction d using materializeElement.induct with
  | _ n cs ih =>
    have hmat : materializeElement (.mk n cs) = .mk n (cs.map materializeElement) := by
      simp only [materializeElement]
      rw [List.attach_map_val]
    rw [hmat]
    cases cs with
    | nil => simp only [postfixTemplateElement]
    | cons dc rest =>
      simp only [postfixTemplateElement]
      refine alignChildren_no_touch _ _ (List.forall₂_map_right_iff.mpr
        (List.forall₂_same.mpr ?_))
      intro x hx
      exact ⟨materializeElement_name x, ih ⟨x, hx⟩⟩

/-- The children produced by one alignment pass line up with the required
descriptors, provided repairing any of the descriptors is idempotent. -/
theorem alignChildren_output :
    ∀ (ds : List TDesc) (cs : List TNode),
      (∀ dc ∈ ds, ∀ m : TNode,
        (postfixTemplateElement dc (postfixTemplateElement dc m).fst).snd = false) →
      List.Forall₂
        (fun dc o => o.name = dc.name ∧ (postfixTemplateElement dc o).snd = false)
        ds (alignChildren ds cs).fst := by
  refine alignChildren.induct (fun d m => True)
    (fun ds cs =>
      (∀ dc ∈ ds, ∀ m : TNode,
        (postfixTemplateElement dc (postfixTemplateElement dc m).fst).snd = false) →
      List.Forall₂
        (fun dc o => o.name = dc.name ∧ (postfixTemplateElement dc o).snd = false)
        ds (alignChildren ds cs).fst)
    ?_ ?_ ?_ ?_ ?_ ?_ ?_ ?_
  · intro dn n cs
    trivial
  · intro dn n cs dc rest ih
    trivial
  · intro h
    simp only [alignChildren]
    exact List.Forall₂.nil
  · intro c cs2 ih h
    simp only [alignChildren]
    exact ih h
  · intro dc ds2 ih h
    simp only [alignChildren]
    exact List.Forall₂.cons
      ⟨materializeElement_name dc, postfix_materialize_no_touch dc⟩
      (ih (fun x hx => h x (List.mem_cons_of_mem dc hx)))
  · intro dc ds2 c cs2 hname ihp ih h
    simp only [alignChildren, if_pos hname]
    refine List.Forall₂.cons ⟨?_, h dc (List.mem_cons_self dc ds2) c⟩
      (ih (fun x hx => h x (List.mem_cons_of_mem dc hx)))
    rw [postfixTemplateElement_name, hname]
  · intro dc ds2 c cs2 hname hcont ih h
    simp only [alignChildren, if_neg hname, if_pos hcont]
    exact List.Forall₂.cons
      ⟨materializeElement_name dc, postfix_materialize_no_touch dc⟩
      (ih (fun x hx => h x (List.mem_cons_of_mem dc hx)))
  · intro dc ds2 c cs2 hname hcont ih h
    simp only [alignChildren, if_neg hname, if_neg hcont]
    exact ih h

/-- Repairing a node twice against the same descriptor reports no touch the
second time. -/
theorem postfix_idempotent (d : TDesc) :
    ∀ m : TNode,
      (postfixTemplateElement d (postfixTemplateElement d m).fst).snd = false := by
  induction d using materializeElement.induct with
  | _ n cs ih =>
    intro m
    cases m with
    | mk mn mcs =>
      cases cs with
      | nil => simp only [postfixTemplateElement]
      | cons dc rest =>
        simp only [postfixTemplateElement]
        exact alignChildren_no_touch _ _
          (alignChildren_output (dc :: rest) mcs (fun dcx hdcx mx => ih ⟨dcx, hdcx⟩ mx))

/-- The repair of one changed node keeps the node's name (its descriptor lookup key). -/
theorem postfixOneElement_name (descs : List TDesc) (m : TNode) :
    (postfixOneElement descs m).fst.name = m.name := by
  cases h : lookupDesc descs m.name with
  | none => simp only [postfixOneElement, h]
  | some d =>
    simp only [postfixOneElement, h]
    exact postfixTemplateElement_name d m

/-- Repairing one changed node twice reports no touch the second time. -/
theorem postfixOneElement_idempotent (descs : List TDesc) (m : TNode) :
    (postfixOneElement descs (postfixOneElement descs m).fst).snd = false := by
  cases h : lookupDesc descs m.name with
  | none =>
    have hfst : postfixOneElement descs m = (m, false) := by
      simp only [postfixOneElement, h]
    rw [hfst]
    simp only [postfixOneElement, h]
  | some d =>
    have hfst : (postfixOneElement descs m).fst = (postfixTemplateElement d m).fst := by
      simp only [postfixOneElement, h]
    simp only [postfixOneElement, hfst, postfixTemplateElement_name, h]
    exact postfix_idempotent d m

/-- Claim C6: the repair pass is idempotent absent external edits — for every
registry and every set of changed nodes, running the postfixer once and then
running it again on its own output reports an empty touched-set the second
time (in particular, on an already-consistent set of nodes — a fixed point of
the first pass — it reports no touches), which is what breaks the host's
fixed-point repair loop. -/
theorem repair_idempotent (descs : List TDesc) (changed : List TNode) :
    (prepareTemplateElementPostfixer descs
      (prepareTemplateElementPostfixer descs changed).fst).snd = false := by
  induction changed with
  | nil => simp only [prepareTemplateElementPostfixer]
  | cons m rest ih =>
    simp only [prepareTemplateElementPostfixer]
    rw [postfixOneElement_idempotent descs m, ih]
    rfl

end Templates
